import Mathlib

/-!
Verification of the token-ledger specification of the `ts-coding-challenge`
repository.

The repository's own source consists of Cucumber step definitions that drive
the real Hedera network through the `@hashgraph/sdk` client; the spec (its
sections 2-4 and 7) describes the deterministic token-ledger core (Ledger
State Store, Token Registry, Transfer Engine, Scenario Orchestrator) that the
step definitions imply.  That core is not part of the repository source, so
its operations are modelled here from the spec's words, while the helper
`adjustForDecimals` is embedded directly from the source file
`src/unnamed/part_000`.
-/

namespace TsLedger

/-- Account identifiers: opaque stable identifiers, modelled as naturals. -/
abbrev AccountId := Nat

/-- Token identifiers: opaque identifiers assigned at creation. -/
abbrev TokenId := Nat

/-- Modelled from the spec: an asset moved by a transfer entry is either
native HBAR or a specific token (spec section 3, `PendingTransfer`:
"(account, token-or-native, signed delta)"). -/
inductive Asset where
  | native : Asset
  | token : TokenId → Asset
deriving DecidableEq

/-- Modelled from the spec: the error taxonomy of spec section 7; the
repository source only surfaces stringly-typed SDK statuses, the tagged
variants below are the spec's replacement for them. -/
inductive Err where
  | NotFound
  | InsufficientFunds
  | NotAssociated
  | AlreadyAssociated
  | InvalidConfig
  | NoMintAuthority
  | SupplyCapExceeded
  | Unbalanced
  | MissingSignature
  | NoSnapshot
deriving DecidableEq

/-- Modelled from the spec: supply policy of a token, `infinite` or `finite`
with a maximum (spec section 3, Token). -/
inductive SupplyPolicy where
  | infinite : SupplyPolicy
  | finite : Nat → SupplyPolicy
deriving DecidableEq

/-- Modelled from the spec: a token record (spec section 3): name, symbol,
decimal precision, supply policy, treasury account reference, optional mint
authority (modelled as a Boolean presence flag), and total supply in
smallest units. -/
structure Token where
  name : String
  symbol : String
  decimals : Nat
  supplyPolicy : SupplyPolicy
  treasury : AccountId
  mintAuthority : Bool
  totalSupply : Nat
deriving DecidableEq

/-- Modelled from the spec: the configuration given to `createToken`
(spec section 4.2): {name, symbol, decimals, initialSupply, supplyPolicy,
treasury, mintAuthority?}. -/
structure TokenConfig where
  name : String
  symbol : String
  decimals : Nat
  initialSupply : Nat
  supplyPolicy : SupplyPolicy
  treasury : AccountId
  mintAuthority : Bool
deriving DecidableEq

/-- Modelled from the spec: the Ledger State Store (spec sections 3 and 4.1),
the single source of truth for balances: account HBAR balances, token
definitions, the association relation, and per-account token balances.
`accountIds` lists the accounts in existence; `nextTokenId` is the allocator
for fresh token identifiers. -/
structure Ledger where
  accountIds : List AccountId
  hbar : AccountId → Nat
  tokens : TokenId → Option Token
  nextTokenId : TokenId
  assoc : AccountId → TokenId → Bool
  tokBal : AccountId → TokenId → Nat

/-- Modelled from the spec: one entry of a pending transfer
(spec section 3): an account, an asset (token or native), and a signed
delta. -/
structure Entry where
  account : AccountId
  asset : Asset
  delta : Int
deriving DecidableEq

/-- Modelled from the spec: a `PendingTransfer` (spec section 3): the ordered
list of entries not yet applied.  The set of accounts that must sign is
derived from the entries by `requiredSigners`. -/
structure PendingTransfer where
  entries : List Entry
deriving DecidableEq

/-- Modelled from the spec: the per-scenario context (spec sections 3 and
4.4): the pending transfer awaiting submission and the HBAR balance snapshot
captured for the fee assertion (the source's `this.createdTransaction` and
`this.balanceBefore`). -/
structure ScenarioContext where
  pending : Option PendingTransfer
  balanceBefore : Option Nat

/-- Update one account's HBAR balance in the ledger. -/
def updHbar (L : Ledger) (a : AccountId) (v : Nat) : Ledger :=
  { L with hbar := fun x => if x = a then v else L.hbar x }

/-- Update one (account, token) balance in the ledger. -/
def updTokBal (L : Ledger) (a : AccountId) (t : TokenId) (v : Nat) : Ledger :=
  { L with tokBal := fun x y => if x = a ∧ y = t then v else L.tokBal x y }

/-- Update one token record in the ledger. -/
def updToken (L : Ledger) (t : TokenId) (tk : Token) : Ledger :=
  { L with tokens := fun x => if x = t then some tk else L.tokens x }

/-- Mark one (account, token) pair as associated in the ledger. -/
def updAssoc (L : Ledger) (a : AccountId) (t : TokenId) : Ledger :=
  { L with assoc := fun x y => if x = a ∧ y = t then true else L.assoc x y }

/-- The ledger state after a fallible operation: the new state on success,
the unchanged input state on failure (spec section 7: "a failed operation
never leaves partial state — each mutating operation either fully commits or
fully no-ops"). -/
def applyResult (L : Ledger) : Except Err Ledger → Ledger
  | Except.ok L2 => L2
  | Except.error _ => L

/-- Sum, as an integer, of every account's balance of token `t`. -/
def sumBalZ (L : Ledger) (t : TokenId) : Int :=
  (L.accountIds.map (fun a => (L.tokBal a t : Int))).sum

/-- Modelled from the spec: `getTokenBalance` of the Ledger State Store
(spec section 4.1): returns the held amount (0 if associated but never
funded); fails with `NotAssociated` if no association exists and the account
is not the treasury.  An unknown token fails with `NotFound`. -/
def getTokenBalance (L : Ledger) (a : AccountId) (t : TokenId) : Except Err Nat :=
  match L.tokens t with
  | none => Except.error Err.NotFound
  | some tk =>
    if L.assoc a t = true ∨ a = tk.treasury then Except.ok (L.tokBal a t)
    else Except.error Err.NotAssociated

/-- Modelled from the spec: `associate` of the Token Registry
(spec section 4.2): idempotent — re-associating an already-associated pair
signals `AlreadyAssociated` rather than mutating state twice. -/
def associate (L : Ledger) (a : AccountId) (t : TokenId) : Except Err Ledger :=
  if L.assoc a t = true then Except.error Err.AlreadyAssociated
  else Except.ok (updAssoc L a t)

/-- Modelled from the spec: the association call site's tolerance
(spec section 7): `AlreadyAssociated` is caught exactly once at the
association call site and treated as success; every other error
propagates. -/
def tolerate (L : Ledger) : Except Err Ledger → Except Err Ledger
  | Except.error Err.AlreadyAssociated => Except.ok L
  | r => r

/-- Modelled from the spec: associating as performed by callers, with the
`AlreadyAssociated` signal tolerated at the call site. -/
def associateTolerant (L : Ledger) (a : AccountId) (t : TokenId) : Except Err Ledger :=
  tolerate L (associate L a t)

/-- Modelled from the spec: `mint` of the Token Registry (spec section 4.2):
fails with `NoMintAuthority` if the token has no mint authority configured;
fails with `SupplyCapExceeded` if applying the mint would exceed a finite
token's maximum; otherwise increases treasury balance and total supply
atomically. -/
def mint (L : Ledger) (t : TokenId) (amount : Nat) : Except Err Ledger :=
  match L.tokens t with
  | none => Except.error Err.NotFound
  | some tk =>
    if tk.mintAuthority = false then Except.error Err.NoMintAuthority
    else
      match tk.supplyPolicy with
      | SupplyPolicy.finite maxSupply =>
        if maxSupply < tk.totalSupply + amount then Except.error Err.SupplyCapExceeded
        else
          Except.ok (updTokBal (updToken L t { tk with totalSupply := tk.totalSupply + amount })
            tk.treasury t (L.tokBal tk.treasury t + amount))
      | SupplyPolicy.infinite =>
        Except.ok (updTokBal (updToken L t { tk with totalSupply := tk.totalSupply + amount })
          tk.treasury t (L.tokBal tk.treasury t + amount))

/-- The token record a configuration gives rise to at creation. -/
def mkToken (cfg : TokenConfig) : Token :=
  { name := cfg.name, symbol := cfg.symbol, decimals := cfg.decimals,
    supplyPolicy := cfg.supplyPolicy, treasury := cfg.treasury,
    mintAuthority := cfg.mintAuthority, totalSupply := cfg.initialSupply }

/-- The ledger after a successful token creation: the fresh identifier is
registered, the treasury's balance of it is initialized to the initial
supply, and the allocator advances. -/
def createdLedger (L : Ledger) (cfg : TokenConfig) : Ledger :=
  { updTokBal (updToken L L.nextTokenId (mkToken cfg))
      cfg.treasury L.nextTokenId cfg.initialSupply with
    nextTokenId := L.nextTokenId + 1 }

/-- Modelled from the spec: `createToken` of the Token Registry
(spec section 4.2): initializes the treasury's token balance to
`initialSupply`; fails with `InvalidConfig` if a `finite` policy's maximum is
less than `initialSupply`; a treasury account unknown to the Ledger State
Store fails with `NotFound` (spec section 4.1). -/
def createToken (L : Ledger) (cfg : TokenConfig) : Except Err (Ledger × TokenId) :=
  if cfg.treasury ∈ L.accountIds then
    match cfg.supplyPolicy with
    | SupplyPolicy.finite maxSupply =>
      if maxSupply < cfg.initialSupply then Except.error Err.InvalidConfig
      else Except.ok (createdLedger L cfg, L.nextTokenId)
    | SupplyPolicy.infinite =>
      Except.ok (createdLedger L cfg, L.nextTokenId)
  else Except.error Err.NotFound

/-- Signed sum of the deltas of the entries concerning one asset. -/
def assetSum (es : List Entry) (a : Asset) : Int :=
  ((es.filter (fun e => decide (e.asset = a))).map (fun e => e.delta)).sum

/-- Boolean conservation check of the Transfer Engine: every distinct asset
mentioned by the entries has deltas summing to exactly zero. -/
def balancedB (es : List Entry) : Bool :=
  (es.map (fun e => e.asset)).all (fun a => decide (assetSum es a = 0))

/-- Modelled from the spec: `buildTransfer` of the Transfer Engine
(spec section 4.3): validates that entries for each distinct asset sum to
exactly zero — fails with `Unbalanced` otherwise; returns a `PendingTransfer`
handle and does not mutate ledger state. -/
def buildTransfer (L : Ledger) (entries : List Entry) :
    Except Err (Ledger × PendingTransfer) :=
  if balancedB entries then Except.ok (L, ⟨entries⟩)
  else Except.error Err.Unbalanced

/-- Modelled from the spec: `requiredSigners` of the Transfer Engine
(spec section 4.3): every account with at least one negative entry in the
transfer must sign before submission. -/
def requiredSigners (pt : PendingTransfer) : List AccountId :=
  (pt.entries.filter (fun e => decide (e.delta < 0))).map (fun e => e.account)

/-- Modelled from the spec: sequential application of the entries of a
pending transfer by the Transfer Engine (spec section 4.3): a receiving
account/token pair lacking association that is not the treasury fails with
`NotAssociated`; a balance that would go negative fails with
`InsufficientFunds`; entries on unknown accounts or tokens fail with
`NotFound` (spec section 4.1).  Failure returns no ledger, so the caller's
state is untouched — the all-or-nothing semantics of spec section 4.3. -/
def applyEntries : Ledger → List Entry → Except Err Ledger
  | L, [] => Except.ok L
  | L, e :: es =>
    if e.account ∈ L.accountIds then
      match e.asset with
      | Asset.native =>
        if ((L.hbar e.account : Int) + e.delta) < 0 then
          Except.error Err.InsufficientFunds
        else
          applyEntries (updHbar L e.account ((L.hbar e.account : Int) + e.delta).toNat) es
      | Asset.token t =>
        match L.tokens t with
        | none => Except.error Err.NotFound
        | some tk =>
          if 0 < e.delta ∧ L.assoc e.account t = false ∧ e.account ≠ tk.treasury then
            Except.error Err.NotAssociated
          else if ((L.tokBal e.account t : Int) + e.delta) < 0 then
            Except.error Err.InsufficientFunds
          else
            applyEntries (updTokBal L e.account t ((L.tokBal e.account t : Int) + e.delta).toNat) es
    else Except.error Err.NotFound

/-- Modelled from the spec: `submit` of the Transfer Engine
(spec section 4.3): fails with `MissingSignature` if `requiredSigners` is not
a subset of `signatures ∪ {payer}`; otherwise applies every entry as a single
atomic unit and deducts the configurable transaction fee from the payer's
HBAR balance, failing with `InsufficientFunds` if any resulting balance would
go negative, with no partial effect. -/
def submit (L : Ledger) (pt : PendingTransfer) (payer : AccountId)
    (sigs : List AccountId) (fee : Nat) : Except Err Ledger :=
  if (requiredSigners pt).all (fun a => decide (a ∈ sigs) || decide (a = payer)) then
    match applyEntries L pt.entries with
    | Except.error e => Except.error e
    | Except.ok L1 =>
      if fee ≤ L1.hbar payer then Except.ok (updHbar L1 payer (L1.hbar payer - fee))
      else Except.error Err.InsufficientFunds
  else Except.error Err.MissingSignature

/-- Modelled from the spec: `submitPending` of the Scenario Orchestrator
(spec sections 3, 4.3 and 4.4): the pending transfer held in the scenario
context is consumed exactly once by submit, then discarded — `Submitted`
(success) and `Rejected` (failure) are both terminal, so the context drops
the transfer on either outcome, and submitting with no pending transfer fails
with `NotFound`. -/
def submitPending (L : Ledger) (ctx : ScenarioContext) (payer : AccountId)
    (sigs : List AccountId) (fee : Nat) : Except Err Ledger × ScenarioContext :=
  match ctx.pending with
  | none => (Except.error Err.NotFound, ctx)
  | some pt => (submit L pt payer sigs fee, { ctx with pending := none })

/-- Modelled from the spec: `assertFeeWasPaid` of the Scenario Orchestrator
(spec section 4.4): requires a previously captured balance snapshot in the
context; fails with `NoSnapshot` if none was captured, otherwise asserts the
payer's current HBAR balance is strictly lower than the snapshot (the
returned Boolean is the assertion's outcome). -/
def assertFeeWasPaid (L : Ledger) (ctx : ScenarioContext) (payer : AccountId) :
    Except Err Bool :=
  match ctx.balanceBefore with
  | none => Except.error Err.NoSnapshot
  | some b => Except.ok (decide (L.hbar payer < b))

/-- Number of bits of `n` in excess of the 53-bit IEEE-754 double
significand, computed with structural fuel. -/
def excessBits : Nat → Nat → Nat
  | 0, _ => 0
  | fuel + 1, n => if n < 2 ^ 53 then 0 else excessBits fuel (n / 2) + 1

/-- The IEEE-754 double-precision value of the integer `n` (round to
nearest, ties to even), for `n` far below the overflow threshold: exact when
`n` fits in 53 significand bits, otherwise rounded at the excess bits. -/
def roundDouble (n : Nat) : Nat :=
  let s := excessBits 64 n
  if s = 0 then n
  else
    let q := n / 2 ^ s
    let r := n % 2 ^ s
    let half := 2 ^ (s - 1)
    (if half < r ∨ (r = half ∧ q % 2 = 1) then q + 1 else q) * 2 ^ s

/-- `adjustForDecimals` from `src/unnamed/part_000` (lines 49-56), on the
integer-amount branch that the claims quantify over: the source computes
`BigInt(amount) * BigInt(10 ** decimals)`, where `10 ** decimals` is a
JavaScript double-precision number, modelled by `roundDouble`, and the
`BigInt` multiplication is exact arbitrary-precision arithmetic. -/
def adjustForDecimals (amount : Nat) (decimals : Nat) : Nat :=
  amount * roundDouble (10 ^ decimals)

/-- Well-formedness of a ledger: account identifiers are listed without
duplicates, every token's treasury is an existing account, tokens not in
existence have no balances, and identifiers at or above the allocator are
unused. -/
def WF (L : Ledger) : Prop :=
  L.accountIds.Nodup ∧
  (∀ t tk, L.tokens t = some tk → tk.treasury ∈ L.accountIds) ∧
  (∀ t, L.tokens t = none → ∀ a, L.tokBal a t = 0) ∧
  (∀ t, L.nextTokenId ≤ t → L.tokens t = none)

/-- The conservation invariant of spec sections 3 and 8: for every existing
token, the sum of all account token balances equals the token's total
supply. -/
def Conserved (L : Ledger) : Prop :=
  ∀ t tk, L.tokens t = some tk → sumBalZ L t = (tk.totalSupply : Int)

theorem sum_update_int (ids : List Nat) (f : Nat → Int) (a : Nat) (v : Int)
    (hnd : ids.Nodup) (ha : a ∈ ids) :
    (ids.map (fun x => if x = a then v else f x)).sum = (ids.map f).sum + v - f a := by
  induction ids with
  | nil => cases ha
  | cons b tl ih =>
    rcases List.nodup_cons.mp hnd with ⟨hb, htl⟩
    rcases List.mem_cons.mp ha with h | h
    · subst h
      simp only [List.map_cons, List.sum_cons, if_pos rfl]
      have hcongr : ∀ x ∈ tl, (fun x => if x = a then v else f x) x = f x := by
        intro x hx
        have : x ≠ a := by rintro rfl; exact hb hx
        simp [this]
      rw [List.map_congr_left hcongr]
      simp only [if_true]
      ring
    · have hba : b ≠ a := by rintro rfl; exact hb h
      simp only [List.map_cons, List.sum_cons, if_neg hba]
      rw [ih htl h]
      ring

theorem sumBalZ_updHbar (L : Ledger) (a : AccountId) (v : Nat) (t : TokenId) :
    sumBalZ (updHbar L a v) t = sumBalZ L t := rfl

theorem sumBalZ_updToken (L : Ledger) (t0 : TokenId) (tk : Token) (t : TokenId) :
    sumBalZ (updToken L t0 tk) t = sumBalZ L t := rfl

theorem sumBalZ_updAssoc (L : Ledger) (a : AccountId) (t0 : TokenId) (t : TokenId) :
    sumBalZ (updAssoc L a t0) t = sumBalZ L t := rfl

theorem sumBalZ_updTokBal_same (L : Ledger) (a : AccountId) (t : TokenId) (v : Nat)
    (hnd : L.accountIds.Nodup) (ha : a ∈ L.accountIds) :
    sumBalZ (updTokBal L a t v) t = sumBalZ L t + (v : Int) - (L.tokBal a t : Int) := by
  unfold sumBalZ updTokBal
  have hcongr : ∀ x ∈ L.accountIds,
      (fun x => ((if x = a ∧ t = t then v else L.tokBal x t : Nat) : Int)) x
        = (fun x => if x = a then (v : Int) else (L.tokBal x t : Int)) x := by
    intro x _
    by_cases hx : x = a <;> simp [hx]
  rw [List.map_congr_left hcongr]
  exact sum_update_int L.accountIds (fun x => (L.tokBal x t : Int)) a (v : Int) hnd ha

theorem sumBalZ_updTokBal_ne (L : Ledger) (a : AccountId) (t0 : TokenId) (v : Nat)
    (t : TokenId) (h : t ≠ t0) :
    sumBalZ (updTokBal L a t0 v) t = sumBalZ L t := by
  unfold sumBalZ updTokBal
  have hcongr : ∀ x ∈ L.accountIds,
      (fun x => ((if x = a ∧ t = t0 then v else L.tokBal x t : Nat) : Int)) x
        = (fun x => (L.tokBal x t : Int)) x := by
    intro x _
    simp [h]
  rw [List.map_congr_left hcongr]

theorem assetSum_nil (a : Asset) : assetSum [] a = 0 := rfl

theorem assetSum_cons (e : Entry) (es : List Entry) (a : Asset) :
    assetSum (e :: es) a = (if e.asset = a then e.delta else 0) + assetSum es a := by
  unfold assetSum
  by_cases h : e.asset = a <;> simp [h, List.filter_cons]

theorem assetSum_eq_zero_of_not_mem (es : List Entry) (a : Asset)
    (h : a ∉ es.map (fun e => e.asset)) : assetSum es a = 0 := by
  unfold assetSum
  have : es.filter (fun e => decide (e.asset = a)) = [] := by
    rw [List.filter_eq_nil_iff]
    intro e he hdec
    exact h (List.mem_map.mpr ⟨e, he, by simpa using hdec⟩)
  rw [this]
  rfl

theorem balancedB_iff (es : List Entry) :
    balancedB es = true ↔ ∀ a, assetSum es a = 0 := by
  unfold balancedB
  rw [List.all_eq_true]
  constructor
  · intro h a
    by_cases ha : a ∈ es.map (fun e => e.asset)
    · simpa using h a ha
    · exact assetSum_eq_zero_of_not_mem es a ha
  · intro h a _
    simpa using h a

theorem applyEntries_ok (es : List Entry) : ∀ (L L' : Ledger),
    applyEntries L es = Except.ok L' → L.accountIds.Nodup →
    L'.accountIds = L.accountIds ∧ L'.tokens = L.tokens ∧ L'.assoc = L.assoc ∧
    L'.nextTokenId = L.nextTokenId ∧
    (∀ t, sumBalZ L' t = sumBalZ L t + assetSum es (Asset.token t)) ∧
    (∀ a t, L.tokens t = none → L'.tokBal a t = L.tokBal a t) := by
  induction es with
  | nil =>
    intro L L' h _
    have hLL : L = L' := by
      simpa [applyEntries] using h
    subst hLL
    refine ⟨rfl, rfl, rfl, rfl, fun t => by simp [assetSum_nil], fun a t _ => rfl⟩
  | cons e es ih =>
    intro L L' h hnd
    obtain ⟨acct, asset, d⟩ := e
    by_cases hA : acct ∈ L.accountIds
    · cases asset with
      | native =>
        simp only [applyEntries] at h
        rw [if_pos hA] at h
        by_cases hneg : ((L.hbar acct : Int) + d) < 0
        · rw [if_pos hneg] at h
          cases h
        · rw [if_neg hneg] at h
          obtain ⟨h1, h2, h3, h4, h5, h6⟩ :=
            ih (updHbar L acct ((L.hbar acct : Int) + d).toNat) L' h hnd
          refine ⟨h1, h2, h3, h4, fun t => ?_, fun a t htn => h6 a t htn⟩
          rw [h5 t, sumBalZ_updHbar, assetSum_cons]
          simp
      | token t0 =>
        simp only [applyEntries] at h
        rw [if_pos hA] at h
        split at h
        · cases h
        · next tk htok =>
          split at h
          · cases h
          · split at h
            · cases h
            · next hneg =>
              obtain ⟨h1, h2, h3, h4, h5, h6⟩ :=
                ih (updTokBal L acct t0 ((L.tokBal acct t0 : Int) + d).toNat) L' h hnd
              have hv : ((((L.tokBal acct t0 : Int) + d).toNat : Nat) : Int)
                  = (L.tokBal acct t0 : Int) + d :=
                Int.toNat_of_nonneg (not_lt.mp hneg)
              refine ⟨h1, h2, h3, h4, fun t => ?_, fun a t htn => ?_⟩
              · by_cases ht : t = t0
                · subst ht
                  rw [h5 t, sumBalZ_updTokBal_same L acct t _ hnd hA, hv, assetSum_cons]
                  simp only [eq_self_iff_true, if_true]
                  ring
                · rw [h5 t, sumBalZ_updTokBal_ne L acct t0 _ t ht, assetSum_cons]
                  have : (Asset.token t0 ≠ Asset.token t) := by
                    simpa using fun hc => ht hc.symm
                  simp [this]
              · have ht0 : t ≠ t0 := by
                  rintro rfl
                  rw [htok] at htn
                  cases htn
                have hL1 : (updTokBal L acct t0 ((L.tokBal acct t0 : Int) + d).toNat).tokBal a t
                    = L.tokBal a t := by
                  unfold updTokBal
                  simp [ht0]
                rw [← hL1]
                exact h6 a t htn
    · simp only [applyEntries] at h
      rw [if_neg hA] at h
      cases h

theorem sumBalZ_eq_zero (L : Ledger) (t : TokenId) (h : ∀ a, L.tokBal a t = 0) :
    sumBalZ L t = 0 := by
  unfold sumBalZ
  apply List.sum_eq_zero
  intro x hx
  rcases List.mem_map.mp hx with ⟨a, _, rfl⟩
  simp [h a]

theorem mintResult_preserves (L : Ledger) (t : TokenId) (tk : Token) (amount : Nat)
    (htok : L.tokens t = some tk) (hWF : WF L) (hC : Conserved L) :
    WF (updTokBal (updToken L t { tk with totalSupply := tk.totalSupply + amount })
        tk.treasury t (L.tokBal tk.treasury t + amount)) ∧
    Conserved (updTokBal (updToken L t { tk with totalSupply := tk.totalSupply + amount })
        tk.treasury t (L.tokBal tk.treasury t + amount)) := by
  obtain ⟨hnd, htr, hz, hfresh⟩ := hWF
  have htrmem : tk.treasury ∈ L.accountIds := htr t tk htok
  constructor
  · refine ⟨hnd, ?_, ?_, ?_⟩
    · intro t2 tk2 h2
      by_cases ht2 : t2 = t
      · subst ht2
        have : some ({ tk with totalSupply := tk.totalSupply + amount }) = some tk2 := by
          simpa [updTokBal, updToken] using h2
        cases this
        exact htrmem
      · exact htr t2 tk2 (by simpa [updTokBal, updToken, ht2] using h2)
    · intro t2 h2 a
      have ht2 : t2 ≠ t := by
        rintro rfl
        simp [updTokBal, updToken] at h2
      have hL : L.tokens t2 = none := by simpa [updTokBal, updToken, ht2] using h2
      simpa [updTokBal, updToken, ht2] using hz t2 hL a
    · intro t2 h2
      have ht2 : t2 ≠ t := by
        rintro rfl
        have := hfresh t2 h2
        rw [htok] at this
        cases this
      simpa [updTokBal, updToken, ht2] using hfresh t2 h2
  · intro t2 tk2 h2
    by_cases ht2 : t2 = t
    · subst ht2
      have htk2 : tk2 = { tk with totalSupply := tk.totalSupply + amount } := by
        have : some ({ tk with totalSupply := tk.totalSupply + amount }) = some tk2 := by
          simpa [updTokBal, updToken] using h2
        cases this
        rfl
      subst htk2
      have hbase : sumBalZ (updToken L t2 { tk with totalSupply := tk.totalSupply + amount }) t2
          = sumBalZ L t2 := sumBalZ_updToken L t2 _ t2
      rw [sumBalZ_updTokBal_same
        (updToken L t2 { tk with totalSupply := tk.totalSupply + amount })
        tk.treasury t2 _ hnd htrmem, hbase, hC t2 tk htok]
      have hbalx : (updToken L t2 { tk with totalSupply := tk.totalSupply + amount }).tokBal
          tk.treasury t2 = L.tokBal tk.treasury t2 := rfl
      rw [hbalx]
      push_cast
      ring
    · have hL : L.tokens t2 = some tk2 := by simpa [updTokBal, updToken, ht2] using h2
      rw [sumBalZ_updTokBal_ne _ tk.treasury t _ t2 ht2, sumBalZ_updToken, hC t2 tk2 hL]

theorem mint_preserves (L : Ledger) (t : TokenId) (amount : Nat) (L' : Ledger)
    (hWF : WF L) (hC : Conserved L) (h : mint L t amount = Except.ok L') :
    WF L' ∧ Conserved L' := by
  unfold mint at h
  split at h
  · cases h
  · next tk htok =>
    split at h
    · cases h
    · split at h
      · split at h
        · cases h
        · cases h
          exact mintResult_preserves L t tk amount htok hWF hC
      · cases h
        exact mintResult_preserves L t tk amount htok hWF hC

theorem associate_preserves (L : Ledger) (a : AccountId) (t : TokenId) (L' : Ledger)
    (hWF : WF L) (hC : Conserved L) (h : associate L a t = Except.ok L') :
    WF L' ∧ Conserved L' := by
  unfold associate at h
  split at h
  · cases h
  · cases h
    obtain ⟨hnd, htr, hz, hfresh⟩ := hWF
    exact ⟨⟨hnd, htr, hz, hfresh⟩, hC⟩

theorem buildTransfer_ok (L : Ledger) (es : List Entry) (L' : Ledger) (pt : PendingTransfer)
    (h : buildTransfer L es = Except.ok (L', pt)) :
    L' = L ∧ pt = ⟨es⟩ ∧ balancedB es = true := by
  unfold buildTransfer at h
  split at h
  · next hb =>
    cases h
    exact ⟨rfl, rfl, hb⟩
  · cases h

theorem submit_preserves (L : Ledger) (pt : PendingTransfer) (payer : AccountId)
    (sigs : List AccountId) (fee : Nat) (L' : Ledger)
    (hbal : balancedB pt.entries = true) (hWF : WF L) (hC : Conserved L)
    (h : submit L pt payer sigs fee = Except.ok L') :
    WF L' ∧ Conserved L' := by
  obtain ⟨hnd, htr, hz, hfresh⟩ := hWF
  unfold submit at h
  split at h
  · split at h
    · cases h
    · next L1 happ =>
      split at h
      · cases h
        obtain ⟨h1, h2, h3, h4, h5, h6⟩ := applyEntries_ok pt.entries L L1 happ hnd
        have hzero : ∀ t, assetSum pt.entries (Asset.token t) = 0 := fun t =>
          (balancedB_iff pt.entries).mp hbal (Asset.token t)
        constructor
        · refine ⟨?_, ?_, ?_, ?_⟩
          · show (updHbar L1 payer (L1.hbar payer - fee)).accountIds.Nodup
            rw [show (updHbar L1 payer (L1.hbar payer - fee)).accountIds = L1.accountIds from rfl, h1]
            exact hnd
          · intro t2 tk2 ht2
            rw [show (updHbar L1 payer (L1.hbar payer - fee)).tokens = L1.tokens from rfl, h2] at ht2
            rw [show (updHbar L1 payer (L1.hbar payer - fee)).accountIds = L1.accountIds from rfl, h1]
            exact htr t2 tk2 ht2
          · intro t2 ht2 a
            rw [show (updHbar L1 payer (L1.hbar payer - fee)).tokens = L1.tokens from rfl, h2] at ht2
            show L1.tokBal a t2 = 0
            rw [h6 a t2 ht2]
            exact hz t2 ht2 a
          · intro t2 hle
            rw [show (updHbar L1 payer (L1.hbar payer - fee)).nextTokenId = L1.nextTokenId from rfl,
              h4] at hle
            rw [show (updHbar L1 payer (L1.hbar payer - fee)).tokens = L1.tokens from rfl, h2]
            exact hfresh t2 hle
        · intro t2 tk2 ht2
          rw [show (updHbar L1 payer (L1.hbar payer - fee)).tokens = L1.tokens from rfl, h2] at ht2
          rw [show sumBalZ (updHbar L1 payer (L1.hbar payer - fee)) t2 = sumBalZ L1 t2 from rfl,
            h5 t2, hzero t2, hC t2 tk2 ht2]
          ring
      · cases h
  · cases h

theorem createdLedger_preserves (L : Ledger) (cfg : TokenConfig)
    (htrmem : cfg.treasury ∈ L.accountIds) (hWF : WF L) (hC : Conserved L) :
    WF (createdLedger L cfg) ∧ Conserved (createdLedger L cfg) := by
  obtain ⟨hnd, htr, hz, hfresh⟩ := hWF
  have hnone : L.tokens L.nextTokenId = none := hfresh L.nextTokenId (le_refl _)
  constructor
  · refine ⟨hnd, ?_, ?_, ?_⟩
    · intro t2 tk2 h2
      by_cases ht2 : t2 = L.nextTokenId
      · subst ht2
        have : some (mkToken cfg) = some tk2 := by
          simpa [createdLedger, updTokBal, updToken] using h2
        cases this
        exact htrmem
      · exact htr t2 tk2 (by simpa [createdLedger, updTokBal, updToken, ht2] using h2)
    · intro t2 h2 a
      have ht2 : t2 ≠ L.nextTokenId := by
        rintro rfl
        simp [createdLedger, updTokBal, updToken] at h2
      have hL : L.tokens t2 = none := by
        simpa [createdLedger, updTokBal, updToken, ht2] using h2
      simpa [createdLedger, updTokBal, updToken, ht2] using hz t2 hL a
    · intro t2 hle
      have hlt : L.nextTokenId < t2 := hle
      have ht2 : t2 ≠ L.nextTokenId := (Nat.ne_of_lt hlt).symm
      have hge : L.nextTokenId ≤ t2 := Nat.le_of_lt hlt
      simpa [createdLedger, updTokBal, updToken, ht2] using hfresh t2 hge
  · intro t2 tk2 h2
    by_cases ht2 : t2 = L.nextTokenId
    · subst ht2
      have htk2 : tk2 = mkToken cfg := by
        have : some (mkToken cfg) = some tk2 := by
          simpa [createdLedger, updTokBal, updToken] using h2
        cases this
        rfl
      subst htk2
      have hstep : sumBalZ (createdLedger L cfg) L.nextTokenId
          = sumBalZ (updTokBal (updToken L L.nextTokenId (mkToken cfg))
              cfg.treasury L.nextTokenId cfg.initialSupply) L.nextTokenId := rfl
      rw [hstep, sumBalZ_updTokBal_same (updToken L L.nextTokenId (mkToken cfg))
        cfg.treasury L.nextTokenId _ hnd htrmem]
      have hb0 : (updToken L L.nextTokenId (mkToken cfg)).tokBal cfg.treasury L.nextTokenId
          = L.tokBal cfg.treasury L.nextTokenId := rfl
      rw [hb0, hz L.nextTokenId hnone cfg.treasury,
        show sumBalZ (updToken L L.nextTokenId (mkToken cfg)) L.nextTokenId
          = sumBalZ L L.nextTokenId from rfl,
        sumBalZ_eq_zero L L.nextTokenId (hz L.nextTokenId hnone)]
      simp [mkToken]
    · have hL : L.tokens t2 = some tk2 := by
        simpa [createdLedger, updTokBal, updToken, ht2] using h2
      have hstep : sumBalZ (createdLedger L cfg) t2
          = sumBalZ (updTokBal (updToken L L.nextTokenId (mkToken cfg))
              cfg.treasury L.nextTokenId cfg.initialSupply) t2 := rfl
      rw [hstep, sumBalZ_updTokBal_ne _ cfg.treasury L.nextTokenId _ t2 ht2,
        show sumBalZ (updToken L L.nextTokenId (mkToken cfg)) t2 = sumBalZ L t2 from rfl,
        hC t2 tk2 hL]

theorem createToken_preserves (L : Ledger) (cfg : TokenConfig) (L' : Ledger) (tid : TokenId)
    (hWF : WF L) (hC : Conserved L) (h : createToken L cfg = Except.ok (L', tid)) :
    WF L' ∧ Conserved L' := by
  unfold createToken at h
  split at h
  · next htrmem =>
    split at h
    · split at h
      · cases h
      · cases h
        exact createdLedger_preserves L cfg htrmem hWF hC
    · cases h
      exact createdLedger_preserves L cfg htrmem hWF hC
  · cases h

/-- A concrete ledger with four funded accounts and no tokens, used to
evaluate the operations on concrete inputs. -/
def Lw0 : Ledger :=
  { accountIds := [0, 1, 2, 3]
    hbar := fun _ => 1000
    tokens := fun _ => none
    nextTokenId := 0
    assoc := fun _ _ => false
    tokBal := fun _ _ => 0 }

/-- A concrete mintable token: infinite supply policy, mint authority
present, treasury account 0, total supply 100. -/
def tkW : Token :=
  { name := "Test Token", symbol := "HTT", decimals := 2,
    supplyPolicy := SupplyPolicy.infinite, treasury := 0,
    mintAuthority := true, totalSupply := 100 }

/-- A concrete fixed-supply token: finite maximum 100, no mint authority,
treasury account 0, total supply 100. -/
def tkFix : Token :=
  { name := "Test Token", symbol := "HTT", decimals := 2,
    supplyPolicy := SupplyPolicy.finite 100, treasury := 0,
    mintAuthority := false, totalSupply := 100 }

/-- A concrete ledger holding the mintable token `tkW` as token 0, its whole
supply at the treasury, and account 1 associated with it. -/
def LwTok : Ledger :=
  { accountIds := [0, 1, 2, 3]
    hbar := fun _ => 1000
    tokens := fun t => if t = 0 then some tkW else none
    nextTokenId := 1
    assoc := fun a t => decide (a = 1 ∧ t = 0)
    tokBal := fun a t => if a = 0 ∧ t = 0 then 100 else 0 }

/-- A concrete ledger holding the fixed-supply token `tkFix` as token 0. -/
def LwFix : Ledger :=
  { accountIds := [0, 1, 2, 3]
    hbar := fun _ => 1000
    tokens := fun t => if t = 0 then some tkFix else none
    nextTokenId := 1
    assoc := fun a t => decide (a = 1 ∧ t = 0)
    tokBal := fun a t => if a = 0 ∧ t = 0 then 100 else 0 }

/-- A balanced two-entry native transfer: 100 out of account 0, 100 into
account 1. -/
def goodEs : List Entry := [⟨0, Asset.native, -100⟩, ⟨1, Asset.native, 100⟩]

/-- An unbalanced two-entry native transfer: 100 out of account 0 but only
60 into account 1. -/
def badEs : List Entry := [⟨0, Asset.native, -100⟩, ⟨1, Asset.native, 60⟩]

/-- Claim C10: for every non-negative integer amount and every decimals
value between 0 and 18, `adjustForDecimals` returns exactly
amount times 10 to the decimals, with no rounding or overflow, and the
result is 0 exactly when the amount is 0. -/
theorem adjustForDecimals_exact (amount decimals : Nat) (h : decimals ≤ 18) :
    adjustForDecimals amount decimals = amount * 10 ^ decimals ∧
    (adjustForDecimals amount decimals = 0 ↔ amount = 0) := by
  have hall : ∀ d, d < 19 → roundDouble (10 ^ d) = 10 ^ d := by decide
  have hr : roundDouble (10 ^ decimals) = 10 ^ decimals :=
    hall decimals (Nat.lt_succ_of_le h)
  have hpow : 10 ^ decimals ≠ 0 := Nat.pos_iff_ne_zero.mp (Nat.pos_pow_of_pos decimals (by norm_num))
  constructor
  · unfold adjustForDecimals
    rw [hr]
  · unfold adjustForDecimals
    rw [hr]
    simp [Nat.mul_eq_zero, hpow]

/-- Witness for claim C10 at amount 3 and decimals 2. -/
theorem adjustForDecimals_exact_witness :
    adjustForDecimals 3 2 = 3 * 10 ^ 2 ∧ (adjustForDecimals 3 2 = 0 ↔ 3 = 0) :=
  adjustForDecimals_exact 3 2 (by decide)

/-- Claim C7: for an existing token, `getTokenBalance` returns 0 when the
account is associated but was never funded, and fails with `NotAssociated`
when no association exists and the account is not the token's treasury. -/
theorem getTokenBalance_spec (L : Ledger) (a : AccountId) (t : TokenId) (tk : Token)
    (htok : L.tokens t = some tk) :
    (L.assoc a t = true → L.tokBal a t = 0 → getTokenBalance L a t = Except.ok 0) ∧
    (L.assoc a t = false → a ≠ tk.treasury →
      getTokenBalance L a t = Except.error Err.NotAssociated) := by
  unfold getTokenBalance
  simp only [htok]
  constructor
  · intro ha hb
    rw [if_pos (Or.inl ha), hb]
  · intro ha hb
    rw [if_neg]
    rintro (h | h)
    · rw [ha] at h
      cases h
    · exact hb h

/-- Witness for claim C7 on `LwTok`: account 1 is associated and unfunded,
account 2 is unassociated and not the treasury. -/
theorem getTokenBalance_spec_witness :
    getTokenBalance LwTok 1 0 = Except.ok 0 ∧
    getTokenBalance LwTok 2 0 = Except.error Err.NotAssociated :=
  ⟨(getTokenBalance_spec LwTok 1 0 tkW rfl).1 (by decide) (by decide),
   (getTokenBalance_spec LwTok 2 0 tkW rfl).2 (by decide) (by decide)⟩

/-- Claim C9: `assertFeeWasPaid` fails with `NoSnapshot` whenever no balance
snapshot was captured in the scenario context, and otherwise asserts that
the payer's current HBAR balance is strictly lower than the snapshot. -/
theorem assertFeeWasPaid_spec (L : Ledger) (ctx : ScenarioContext) (payer : AccountId)
    (b : Nat) :
    (ctx.balanceBefore = none → assertFeeWasPaid L ctx payer = Except.error Err.NoSnapshot) ∧
    (ctx.balanceBefore = some b →
      (assertFeeWasPaid L ctx payer = Except.ok true ↔ L.hbar payer < b)) := by
  unfold assertFeeWasPaid
  constructor
  · intro h
    simp only [h]
  · intro h
    simp only [h]
    simp

/-- Witness for claim C9: an empty context signals `NoSnapshot`; with a
snapshot of 500 the assertion compares against the current balance. -/
theorem assertFeeWasPaid_spec_witness :
    assertFeeWasPaid Lw0 ⟨none, none⟩ 0 = Except.error Err.NoSnapshot ∧
    (assertFeeWasPaid Lw0 ⟨none, some 500⟩ 0 = Except.ok true ↔ Lw0.hbar 0 < 500) :=
  ⟨(assertFeeWasPaid_spec Lw0 ⟨none, none⟩ 0 500).1 rfl,
   (assertFeeWasPaid_spec Lw0 ⟨none, some 500⟩ 0 500).2 rfl⟩

/-- Claim C8: a pending transfer is consumed exactly once: after a submit —
whether it ends `Submitted` (success) or `Rejected` (failure), both
terminal — the scenario context has discarded the transfer, and any
resubmission attempt fails with `NotFound` and changes nothing. -/
theorem submitPending_consumed (L : Ledger) (ctx : ScenarioContext) (payer : AccountId)
    (sigs : List AccountId) (fee : Nat) (pt : PendingTransfer)
    (h : ctx.pending = some pt) (L2 : Ledger) (payer2 : AccountId)
    (sigs2 : List AccountId) (fee2 : Nat) :
    (submitPending L ctx payer sigs fee).2.pending = none ∧
    submitPending L2 (submitPending L ctx payer sigs fee).2 payer2 sigs2 fee2
      = (Except.error Err.NotFound, (submitPending L ctx payer sigs fee).2) := by
  unfold submitPending
  simp only [h]
  exact ⟨trivial, trivial⟩

/-- Witness for claim C8 on a context holding an empty pending transfer. -/
theorem submitPending_consumed_witness :
    (submitPending Lw0 ⟨some ⟨[]⟩, none⟩ 0 [] 0).2.pending = none ∧
    submitPending Lw0 (submitPending Lw0 ⟨some ⟨[]⟩, none⟩ 0 [] 0).2 0 [] 0
      = (Except.error Err.NotFound, (submitPending Lw0 ⟨some ⟨[]⟩, none⟩ 0 [] 0).2) :=
  submitPending_consumed Lw0 ⟨some ⟨[]⟩, none⟩ 0 [] 0 ⟨[]⟩ rfl Lw0 0 [] 0

/-- Claim C6: `associate` is idempotent: re-associating an already-associated
pair signals `AlreadyAssociated` and leaves the state identical, the signal
is caught at the association call site and treated as success, and every
other error propagates through the call site untouched. -/
theorem associate_idempotent (L : Ledger) (a : AccountId) (t : TokenId)
    (h : L.assoc a t = true) (e : Err) (he : e ≠ Err.AlreadyAssociated) :
    associate L a t = Except.error Err.AlreadyAssociated ∧
    associateTolerant L a t = Except.ok L ∧
    tolerate L (Except.error e) = Except.error e := by
  refine ⟨?_, ?_, ?_⟩
  · unfold associate
    rw [if_pos h]
  · unfold associateTolerant associate
    rw [if_pos h]
    rfl
  · cases e
    case AlreadyAssociated => exact absurd rfl he
    all_goals rfl

/-- Witness for claim C6 on `LwTok`, where account 1 is already associated
with token 0; `Unbalanced` stands in for an unrelated error. -/
theorem associate_idempotent_witness :
    associate LwTok 1 0 = Except.error Err.AlreadyAssociated ∧
    associateTolerant LwTok 1 0 = Except.ok LwTok ∧
    tolerate LwTok (Except.error Err.Unbalanced) = Except.error Err.Unbalanced :=
  associate_idempotent LwTok 1 0 (by decide) Err.Unbalanced (by decide)

/-- Claim C5: minting any positive amount of a token configured without a
mint authority fails with `NoMintAuthority`, and the failed attempt leaves
the whole ledger — total supply and every balance — unchanged. -/
theorem mint_noAuthority (L : Ledger) (t : TokenId) (tk : Token) (amount : Nat)
    (htok : L.tokens t = some tk) (hauth : tk.mintAuthority = false) (hpos : 0 < amount) :
    mint L t amount = Except.error Err.NoMintAuthority ∧
    applyResult L (mint L t amount) = L := by
  have hm : mint L t amount = Except.error Err.NoMintAuthority := by
    unfold mint
    simp only [htok]
    rw [if_pos hauth]
  exact ⟨hm, by rw [hm]; rfl⟩

/-- Witness for claim C5: minting one unit of the fixed-supply token of
`LwFix` fails with `NoMintAuthority` and commits nothing. -/
theorem mint_noAuthority_witness :
    mint LwFix 0 1 = Except.error Err.NoMintAuthority ∧
    applyResult LwFix (mint LwFix 0 1) = LwFix :=
  mint_noAuthority LwFix 0 tkFix 1 rfl rfl (by decide)

/-- Claim C2: `buildTransfer` succeeds for every entry list in which the
signed deltas for each distinct asset sum to exactly zero, and fails with
`Unbalanced` for every entry list in which some asset's deltas have a
non-zero sum. -/
theorem buildTransfer_balanced (L : Ledger) (es : List Entry) :
    ((∀ a, assetSum es a = 0) → buildTransfer L es = Except.ok (L, ⟨es⟩)) ∧
    ((∃ a, assetSum es a ≠ 0) → buildTransfer L es = Except.error Err.Unbalanced) := by
  constructor
  · intro h
    unfold buildTransfer
    rw [if_pos ((balancedB_iff es).mpr h)]
  · rintro ⟨a, ha⟩
    unfold buildTransfer
    rw [if_neg]
    intro hb
    exact ha ((balancedB_iff es).mp hb a)

/-- Witness for claim C2: the balanced list `goodEs` builds, the unbalanced
list `badEs` is rejected. -/
theorem buildTransfer_balanced_witness :
    buildTransfer Lw0 goodEs = Except.ok (Lw0, ⟨goodEs⟩) ∧
    buildTransfer Lw0 badEs = Except.error Err.Unbalanced :=
  ⟨(buildTransfer_balanced Lw0 goodEs).1 (by
      intro a
      cases a with
      | native => decide
      | token t => simp [goodEs, assetSum]),
   (buildTransfer_balanced Lw0 badEs).2 ⟨Asset.native, by decide⟩⟩

/-- Counterexample to claim C3 as stated: on the unbalanced entry list
`badEs`, `buildTransfer` does not return a `PendingTransfer` handle — it
fails with `Unbalanced` — so the handle-returning half of the claim does not
hold for every entry list. -/
theorem buildTransfer_handle_cex :
    buildTransfer Lw0 badEs = Except.error Err.Unbalanced := by
  have h : balancedB badEs = false := by decide
  unfold buildTransfer
  rw [h]
  rfl

/-- Claim C3 (amended): for every entry list, `buildTransfer` leaves all
ledger state — every account's HBAR balance and every account's token
balance — unchanged, and whenever it succeeds it returns a
`PendingTransfer` handle carrying exactly the given entries; no balance is
modified before submit is called on the pending transfer. -/
theorem buildTransfer_frame (L : Ledger) (entries : List Entry) (L' : Ledger)
    (pt : PendingTransfer) (h : buildTransfer L entries = Except.ok (L', pt))
    (a : AccountId) (t : TokenId) :
    L'.hbar a = L.hbar a ∧ L'.tokBal a t = L.tokBal a t ∧ pt = ⟨entries⟩ := by
  obtain ⟨hL, hpt, -⟩ := buildTransfer_ok L entries L' pt h
  subst hL
  exact ⟨rfl, rfl, hpt⟩

/-- Witness for claim C3 (amended) on the balanced list `goodEs`. -/
theorem buildTransfer_frame_witness :
    Lw0.hbar 0 = Lw0.hbar 0 ∧ Lw0.tokBal 0 0 = Lw0.tokBal 0 0 ∧
    (⟨goodEs⟩ : PendingTransfer) = ⟨goodEs⟩ :=
  buildTransfer_frame Lw0 goodEs Lw0 ⟨goodEs⟩ (by rfl) 0 0

/-- Claim C4: `submit` fails with `MissingSignature` whenever some account
with a negative entry, other than the fee-payer, is missing from the
signature set; the failure commits nothing, so every HBAR and token balance
is unchanged; and the required-signer set is exactly the set of accounts
with at least one negative entry. -/
theorem submit_missing_signature (L : Ledger) (pt : PendingTransfer) (payer : AccountId)
    (sigs : List AccountId) (fee : Nat) (e : Entry) (x : AccountId)
    (hmem : e ∈ pt.entries) (hneg : e.delta < 0) (hnotsig : e.account ∉ sigs)
    (hnotpayer : e.account ≠ payer) :
    submit L pt payer sigs fee = Except.error Err.MissingSignature ∧
    applyResult L (submit L pt payer sigs fee) = L ∧
    (x ∈ requiredSigners pt ↔ ∃ e2 ∈ pt.entries, e2.account = x ∧ e2.delta < 0) := by
  have hms : submit L pt payer sigs fee = Except.error Err.MissingSignature := by
    unfold submit
    rw [if_neg]
    intro hall
    rw [List.all_eq_true] at hall
    have hxmem : e.account ∈ requiredSigners pt :=
      List.mem_map.mpr ⟨e, List.mem_filter.mpr ⟨hmem, by simpa using hneg⟩, rfl⟩
    have hp := hall e.account hxmem
    simp only [Bool.or_eq_true, decide_eq_true_eq] at hp
    rcases hp with hp | hp
    · exact hnotsig hp
    · exact hnotpayer hp
  refine ⟨hms, by rw [hms]; rfl, ?_⟩
  constructor
  · intro hx
    rcases List.mem_map.mp hx with ⟨e2, hf, rfl⟩
    rcases List.mem_filter.mp hf with ⟨hm2, hd2⟩
    exact ⟨e2, hm2, rfl, by simpa using hd2⟩
  · rintro ⟨e2, hm2, hacc, hd2⟩
    exact hacc ▸ List.mem_map.mpr ⟨e2, List.mem_filter.mpr ⟨hm2, by simpa using hd2⟩, rfl⟩

/-- Witness for claim C4: submitting the transfer `goodEs` with payer 1 and
no collected signature misses sender 0's signature. -/
theorem submit_missing_signature_witness :
    submit Lw0 ⟨goodEs⟩ 1 [] 0 = Except.error Err.MissingSignature ∧
    applyResult Lw0 (submit Lw0 ⟨goodEs⟩ 1 [] 0) = Lw0 ∧
    (0 ∈ requiredSigners ⟨goodEs⟩ ↔
      ∃ e2 ∈ (⟨goodEs⟩ : PendingTransfer).entries, e2.account = 0 ∧ e2.delta < 0) :=
  submit_missing_signature Lw0 ⟨goodEs⟩ 1 [] 0 ⟨0, Asset.native, -100⟩ 0
    (by decide) (by decide) (by decide) (by decide)

/-- Claim C1: starting from a well-formed ledger in which every token's
total supply equals the sum of all account balances of it, every committed
operation — token creation, mint, association, and submission of a transfer
built by `buildTransfer` — preserves well-formedness and that conservation
invariant, so no committed operation creates or destroys token units outside
Token Registry operations. -/
theorem conservation_after_ops (L : Ledger) (hWF : WF L) (hC : Conserved L) :
    (∀ cfg L' tid, createToken L cfg = Except.ok (L', tid) → WF L' ∧ Conserved L') ∧
    (∀ t amount L', mint L t amount = Except.ok L' → WF L' ∧ Conserved L') ∧
    (∀ a t L', associate L a t = Except.ok L' → WF L' ∧ Conserved L') ∧
    (∀ Lb es pt payer sigs fee L', buildTransfer Lb es = Except.ok (Lb, pt) →
      submit L pt payer sigs fee = Except.ok L' → WF L' ∧ Conserved L') := by
  refine ⟨?_, ?_, ?_, ?_⟩
  · intro cfg L' tid h
    exact createToken_preserves L cfg L' tid hWF hC h
  · intro t amount L' h
    exact mint_preserves L t amount L' hWF hC h
  · intro a t L' h
    exact associate_preserves L a t L' hWF hC h
  · intro Lb es pt payer sigs fee L' hb hs
    obtain ⟨-, hpt, hbal⟩ := buildTransfer_ok Lb es Lb pt hb
    subst hpt
    exact submit_preserves L ⟨es⟩ payer sigs fee L' hbal hWF hC hs

/-- `LwTok` is well-formed. -/
theorem wf_LwTok : WF LwTok := by
  refine ⟨by decide, ?_, ?_, ?_⟩
  · intro t tk h
    by_cases ht : t = 0
    · subst ht
      have : some tkW = some tk := by simpa [LwTok] using h
      cases this
      decide
    · simp [LwTok, ht] at h
  · intro t h a
    have ht : t ≠ 0 := by
      rintro rfl
      simp [LwTok] at h
    simp [LwTok, ht]
  · intro t h
    have ht : t ≠ 0 := by
      rintro rfl
      have : (1 : Nat) ≤ 0 := h
      cases this
    simp [LwTok, ht]

/-- `LwTok` satisfies the conservation invariant. -/
theorem conserved_LwTok : Conserved LwTok := by
  intro t tk h
  by_cases ht : t = 0
  · subst ht
    have : some tkW = some tk := by simpa [LwTok] using h
    cases this
    decide
  · simp [LwTok, ht] at h

/-- Witness for claim C1: minting 5 units of token 0 on the concrete ledger
`LwTok` commits, and the resulting ledger is again well-formed and
conserving. -/
theorem conservation_after_ops_witness :
    WF (applyResult LwTok (mint LwTok 0 5)) ∧
    Conserved (applyResult LwTok (mint LwTok 0 5)) :=
  (conservation_after_ops LwTok wf_LwTok conserved_LwTok).2.1 0 5
    (applyResult LwTok (mint LwTok 0 5)) (by rfl)

end TsLedger
